import Mathlib

/-!
Verification development for the etf-swap-extractor repository.

The definitions below are a shallow embedding of the Python sources:
`etf_swap_extractor_manual.py` (class `ETFSwapDataExtractor`: `setup_database`,
`_parse_nport_xml_specific`, `_extract_specific_swap_info`,
`save_swap_data_specific`, `get_historical_filings`, `process_ticker`,
`clear_ticker_data`), `etf_swap_extractor.py` (`_parse_nport_xml`,
`_extract_swap_info`, `save_swap_data`, `get_nport_filings`) and
`tsll_swap_extractor_fixed.py` (`find_series_data`, `extract_swap_data`,
`parse_swap_element`, `parse_text_swap_reference`).

Python dictionaries are modelled as insertion-ordered association lists over
`PyVal`; `xml.etree.ElementTree` elements as a rose tree `Xml` whose tags are
namespace-qualified names; SQLite tables as lists of row structures; the
network boundary as `Except` values (errors standing for the caught
request/parse exceptions).
-/

/-- Value stored in a Python dict / SQLite column: `None`, a string, or a
number.  Python floats arising from `float()` on the decimal strings found in
filings are modelled exactly as rationals. -/
inductive PyVal where
  | none_
  | str (s : String)
  | num (q : ℚ)
deriving DecidableEq, Repr

/-- Python truthiness for the values we model: `None`, `""` and `0` are falsy. -/
def PyVal.truthy : PyVal → Bool
  | .none_ => false
  | .str s => s ≠ ""
  | .num q => q ≠ 0

/-- Model of the Python expression `a or b` (first truthy operand, else `b`). -/
def pyOr (a b : PyVal) : PyVal := if a.truthy then a else b

/-- Lift of `Option String` (an ElementTree attribute/text lookup) to the value
actually assigned into a Python dict. -/
def pyOfOpt : Option String → PyVal
  | none => .none_
  | some s => .str s

/-- Namespace-qualified XML tag, the resolved form of ElementTree's
`{uri}localname` tag strings (`ns = ""` for an unnamespaced tag). -/
structure QName where
  ns : String
  name : String
deriving DecidableEq, Repr

/-- The nport namespace URI used throughout the sources. -/
def nportNs : String := "http://www.sec.gov/edgar/nport"

/-- The edgar common namespace URI. -/
def comNs : String := "http://www.sec.gov/edgar/common"

/-- The nportcommon namespace URI. -/
def ncomNs : String := "http://www.sec.gov/edgar/nportcommon"

mutual

/-- Model of an `xml.etree.ElementTree.Element`: tag, attribute list, text,
children.  Children are carried as the mutually inductive `XmlForest` (an
unrolled list) so that all traversals are structurally recursive and fully
evaluable. -/
inductive Xml where
  | elem (tag : QName) (attrs : List (String × String)) (text : Option String)
      (children : XmlForest)
deriving DecidableEq

/-- A sequence of sibling elements. -/
inductive XmlForest where
  | nil
  | cons (x : Xml) (xs : XmlForest)
deriving DecidableEq

end

/-- Forest from a list of elements (used to write documents as literals). -/
def XmlForest.ofList : List Xml → XmlForest
  | [] => .nil
  | x :: xs => .cons x (XmlForest.ofList xs)

/-- List of the forest's elements. -/
def XmlForest.toList : XmlForest → List Xml
  | .nil => []
  | .cons x xs => x :: XmlForest.toList xs

def Xml.tagQ : Xml → QName
  | .elem t _ _ _ => t

def Xml.attrs : Xml → List (String × String)
  | .elem _ a _ _ => a

def Xml.text : Xml → Option String
  | .elem _ _ s _ => s

def Xml.childrenF : Xml → XmlForest
  | .elem _ _ _ c => c

/-- The child list, as iterated by `for child in elem`. -/
def Xml.children (e : Xml) : List Xml := e.childrenF.toList

/-- Model of `elem.attrib.get(k)`. -/
def Xml.attrGet (e : Xml) (k : String) : Option String :=
  (e.attrs.find? (fun p => p.1 = k)).map (fun p => p.2)

/-- Model of `elem.attrib.get(k, d)`. -/
def Xml.attrGetD (e : Xml) (k d : String) : String :=
  (e.attrGet k).getD d

mutual

/-- Document-order traversal including the element itself, as in
`elem.iter()`. -/
def Xml.iterL : Xml → List Xml
  | .elem t a s c => .elem t a s c :: XmlForest.iterF c

/-- Document-order traversal of a forest of elements. -/
def XmlForest.iterF : XmlForest → List Xml
  | .nil => []
  | .cons x xs => x.iterL ++ XmlForest.iterF xs

end

/-- Strict descendants of an element, the search space of an ElementTree
`.//` path (which never matches the element itself). -/
def Xml.descendants (e : Xml) : List Xml := XmlForest.iterF e.childrenF

/-- Model of `element.findall('.//tag', namespaces)` after the path tag has
been resolved against the namespace map. -/
def findAllDesc (e : Xml) (q : QName) : List Xml :=
  e.descendants.filter (fun x => x.tagQ = q)

/-- Model of `element.find('.//tag', namespaces)`: first matching strict
descendant in document order. -/
def findDesc (e : Xml) (q : QName) : Option Xml :=
  (findAllDesc e q).head?

/-- Model of `element.find('tag')`: first matching direct child. -/
def findChild (e : Xml) (q : QName) : Option Xml :=
  (e.children.filter (fun x => x.tagQ = q)).head?

/-- Model of `element.find('.//a/b/c', namespaces)`: first descendant chain
`a` with child `b` with child `c`, in document order. -/
def findPath3 (e : Xml) (q1 q2 q3 : QName) : Option Xml :=
  ((findAllDesc e q1).flatMap (fun d =>
    (d.children.filter (fun s => s.tagQ = q2)).flatMap (fun s =>
      s.children.filter (fun f => f.tagQ = q3)))).head?

/-- Character rendering of a qualified tag, standing for ElementTree's
`{uri}localname` form (the brace delimiters are rendered as `uri:localname`;
only the presence of the URI text and the local name as substrings matters to
the keyword scans in the sources, and no scanned keyword occurs in any of the
three namespace URIs). -/
def tagChars (t : QName) : List Char :=
  if t.ns = "" then t.name.toList else t.ns.toList ++ ':' :: t.name.toList

/-- Character rendering of an attribute list, as serialized inside a start
tag. -/
def attrsChars : List (String × String) → List Char
  | [] => []
  | (k, v) :: rest => ' ' :: k.toList ++ '=' :: '"' :: v.toList ++ '"' :: attrsChars rest

mutual

/-- Model of `ET.tostring(element, encoding='unicode')`: the full serialized
text of the element, covering tag names, attribute names and values, text
content and all descendants. -/
def serializeL : Xml → List Char
  | .elem t a s c =>
    '<' :: tagChars t ++ attrsChars a ++ '>' :: (s.getD "").toList
      ++ serializeF c ++ '<' :: '/' :: tagChars t ++ ['>']

/-- Serialization of a forest of elements. -/
def serializeF : XmlForest → List Char
  | .nil => []
  | .cons x xs => serializeL x ++ serializeF xs

end

/-- Lower-casing of a character list, modelling `str.lower()`. -/
def toLowerL (s : List Char) : List Char := s.map Char.toLower

/-- Boolean test that `n` begins `h`. -/
def pfx : List Char → List Char → Bool
  | [], _ => true
  | _ :: _, [] => false
  | a :: as, b :: bs => a = b && pfx as bs

/-- Model of Python's substring operator `n in h` on strings. -/
def containsSub (n : List Char) : List Char → Bool
  | [] => n.isEmpty
  | c :: t => pfx n (c :: t) || containsSub n t

/-- Python dict with string keys, modelled as an insertion-ordered association
list (matching CPython's ordered dicts). -/
abbrev Dict := List (String × PyVal)

/-- Key membership, the model of `k in d`. -/
def dictHasKey (d : Dict) (k : String) : Bool := d.any (fun p => p.1 = k)

/-- Model of `d.get(k)` / `d[k]` lookup (as an `Option`). -/
def dictGet (d : Dict) (k : String) : Option PyVal :=
  (d.find? (fun p => p.1 = k)).map (fun p => p.2)

/-- Model of `d.get(k, v)`. -/
def dictGetD (d : Dict) (k : String) (v : PyVal) : PyVal := (dictGet d k).getD v

/-- Model of `d[k] = v`: overwrite the (unique) existing binding in place,
else append — CPython dict assignment preserves insertion order. -/
def dictSet (d : Dict) (k : String) (v : PyVal) : Dict :=
  match d with
  | [] => [(k, v)]
  | p :: rest => if p.1 = k then (k, v) :: rest else p :: dictSet rest k v

/-- Numeric value of a digit string (most significant first). -/
def digitsVal (cs : List Char) : ℕ :=
  cs.foldl (fun a c => a * 10 + (c.toNat - 48)) 0

/-- Parse the optional exponent tail of a Python float literal; `none` models
`ValueError`. -/
def parseExpTail (cs : List Char) : Option ℤ :=
  match cs with
  | [] => some 0
  | c :: r =>
    if c = 'e' ∨ c = 'E' then
      let (sgn, r2) : ℤ × List Char :=
        match r with
        | '+' :: r2 => (1, r2)
        | '-' :: r2 => (-1, r2)
        | _ => (1, r)
      let ds := r2.takeWhile Char.isDigit
      if ds.isEmpty = false ∧ r2.drop ds.length = [] then some (sgn * digitsVal ds)
      else none
    else none

/-- Model of CPython's `float(s)` on decimal literals: optional surrounding
whitespace, optional sign, digits with optional fractional part, optional
exponent; anything else (commas, `$`, `%`, empty string, ...) raises
`ValueError`, modelled as `none`.  The result is represented exactly as a
rational.  (`inf`/`nan` spellings and digit-group underscores are accepted by
CPython but never arise from the filing strings modelled here.) -/
def pyFloat (s : String) : Option ℚ :=
  let cs := ((s.toList.dropWhile Char.isWhitespace).reverse.dropWhile
    Char.isWhitespace).reverse
  let (sgn, cs1) : ℤ × List Char :=
    match cs with
    | '+' :: r => (1, r)
    | '-' :: r => (-1, r)
    | _ => (1, cs)
  let ip := cs1.takeWhile Char.isDigit
  let rest1 := cs1.drop ip.length
  let (fp, rest2) : List Char × List Char :=
    match rest1 with
    | '.' :: r => (r.takeWhile Char.isDigit, r.drop (r.takeWhile Char.isDigit).length)
    | _ => ([], rest1)
  if ip ++ fp = [] then none
  else
    match parseExpTail rest2 with
    | none => none
    | some e =>
      -- sgn * (ip.fp) * 10^e, assembled as a single exact rational
      let num0 : ℤ := sgn * ((digitsVal ip : ℤ) * 10 ^ fp.length + (digitsVal fp : ℤ))
      if 0 ≤ e then some (mkRat (num0 * 10 ^ e.toNat) (10 ^ fp.length))
      else some (mkRat num0 (10 ^ (fp.length + (-e).toNat)))

/-- Model of `str.strip()`: drop surrounding whitespace.  (Defined over the
character list so concrete values evaluate inside proofs.) -/
def pyStrip (s : String) : String :=
  String.mk (((s.toList.dropWhile Char.isWhitespace).reverse.dropWhile
    Char.isWhitespace).reverse)

/-- Model of `int(s)` on the digit-only registrant-id strings used by the
sources (`None` models `ValueError`). -/
def strToNat? (s : String) : Option ℕ :=
  if s.toList ≠ [] ∧ s.toList.all Char.isDigit then some (digitsVal s.toList)
  else none

/-- Model of `re.sub(r'[,$%]', '', value)` from `_extract_specific_swap_info`
(lines 322): strip thousands separators, currency symbols and percent signs. -/
def cleanNumeric (s : String) : String :=
  String.mk (s.toList.filter (fun c => ¬(c = ',' ∨ c = '$' ∨ c = '%')))

/-- Conversion applied to the `notional_amt` field (manual extractor, lines
320-325): strip `[,$%]`, then `float`; on `ValueError` keep the original
string. -/
def convertNotional (v : String) : PyVal :=
  match pyFloat (cleanNumeric v) with
  | some q => .num q
  | none => .str v

/-- Conversion applied to the `floatingRtSpread` attribute (manual extractor,
lines 349-354): `float` on the raw attribute value — no `[,$%]` stripping —
and on `ValueError` keep the original string. -/
def convertSpread (v : String) : PyVal :=
  match pyFloat v with
  | some q => .num q
  | none => .str v

/-- Keyword allow-list `swap_indicators` from `_extract_specific_swap_info`
(lines 269-270). -/
def swapIndicators : List String :=
  ["swap", "derivative", "deriv", "forward", "future", "option",
   "floatingRtIndex", "fixedOrFloating", "counterparty", "notional"]

/-- Model of `any(ind.lower() in element_text.lower() for ind in
swap_indicators)`. -/
def hasIndicators (s : List Char) : Bool :=
  swapIndicators.any (fun ind => containsSub (toLowerL ind.toList) (toLowerL s))

/-- Namespace-prefix resolution against the manual parser's `namespaces`
dict (lines 182-188): both `''` and `'nport'` map to the nport URI. -/
def nsResolveManual (p : String) : String :=
  if p = "com" then comNs else if p = "ncom" then ncomNs else nportNs

/-- Prefix try-order in `find_field_value` (line 297). -/
def nsPrefixOrder : List String := ["", "nport", "com", "ncom"]

/-- One lookup attempt of `find_field_value`: `elem.find(path)` followed by
`if elem is not None and elem.text: return elem.text.strip()`. -/
def tryFindText (e : Xml) (q : QName) : Option String :=
  match findDesc e q with
  | some el =>
    match el.text with
    | some t => if t ≠ "" then some (pyStrip t) else none
    | none => none
  | none => none

/-- Model of `find_field_value` (lines 295-314): for each tag-name variant,
try every namespace prefix and then an un-namespaced fallback; the first
non-empty text wins. -/
def findFieldValue (variations : List String) (e : Xml) : Option String :=
  variations.findSome? (fun field =>
    (nsPrefixOrder.findSome? (fun p => tryFindText e ⟨nsResolveManual p, field⟩))
      <|> tryFindText e ⟨"", field⟩)

/-- Field-alias table `field_mappings` (lines 284-293), in dict insertion
order. -/
def fieldMappings : List (String × List String) :=
  [("index_name", ["indexName", "indexTitle", "index", "benchmarkName", "name",
      "title", "desc", "description", "issuerName", "securityName"]),
   ("index_identifier", ["indexIdentifier", "indexId", "benchmarkId",
      "identifier", "id", "securityId", "cusip", "isin"]),
   ("counterparty_name", ["counterpartyName", "ctrPtyName", "counterparty",
      "ctrPty", "cptyName", "partyName"]),
   ("notional_amt", ["notionalAmt", "notional", "notionalAmount", "amt",
      "principalAmt", "nominalAmt", "faceAmt"])]

/-- One iteration of the `for output_field, field_variations in
field_mappings.items()` loop (lines 317-327). -/
def fieldStep (e : Xml) (d : Dict) (m : String × List String) : Dict :=
  match findFieldValue m.2 e with
  | none => d
  | some v =>
    if v = "" then d
    else dictSet d m.1 (if m.1 = "notional_amt" then convertNotional v else .str v)

/-- Allow-list `valid_indices` (line 343). -/
def validIndices : List String :=
  ["1 month Sofr + spread", "OBFR01", "FEDL01", "OBFR"]

/-- Model of lines 344-347: a recognized index value is kept, anything else is
remapped to the default category. -/
def normalizeFloatingRtIndex (s : String) : String :=
  if s ∈ validIndices then s else "1 month Sofr + spread"

/-- Model of the `floatingPmntDesc` lookup (lines 330-336): namespaced
three-step path with an un-namespaced fallback. -/
def findFloatingPmntDesc (e : Xml) : Option Xml :=
  findPath3 e ⟨nportNs, "derivativeInfo"⟩ ⟨nportNs, "swapDeriv"⟩
      ⟨nportNs, "floatingPmntDesc"⟩
    <|> findPath3 e ⟨"", "derivativeInfo"⟩ ⟨"", "swapDeriv"⟩
      ⟨"", "floatingPmntDesc"⟩

/-- Model of lines 338-354: attribute-based extraction of `fixed_or_floating`,
`floating_rt_index` and `floating_rt_spread` from the `floatingPmntDesc`
element.  Note `attrib.get('fixedOrFloating')` may be `None`, in which case
the dict key is still created (holding `None`). -/
def applyFloating (e : Xml) (d : Dict) : Dict :=
  match findFloatingPmntDesc e with
  | none => d
  | some fp =>
    let d1 := dictSet d "fixed_or_floating" (pyOfOpt (fp.attrGet "fixedOrFloating"))
    let fri := fp.attrGetD "floatingRtIndex" ""
    let d2 :=
      if fri ≠ "" then
        dictSet d1 "floating_rt_index" (.str (normalizeFloatingRtIndex fri))
      else d1
    match fp.attrGet "floatingRtSpread" with
    | none => d2
    | some sv => dictSet d2 "floating_rt_spread" (convertSpread sv)

/-- The completeness gate `required_fields` (line 357). -/
def requiredFields : List String :=
  ["counterparty_name", "fixed_or_floating", "floating_rt_index", "notional_amt"]

/-- Model of `_extract_specific_swap_info` (manual extractor, lines 262-366):
keyword gate on the serialized element text, alias-table field extraction,
attribute-based floating-rate extraction, then the all-four-fields completeness
gate (`None` is returned when any required dict key is missing). -/
def extractSpecificSwapInfo (e : Xml) (tk url : String) : Option Dict :=
  if hasIndicators (serializeL e) then
    let d0 : Dict := [("ticker", .str tk), ("filing_url", .str url)]
    let d1 := fieldMappings.foldl (fieldStep e) d0
    let d2 := applyFloating e d1
    if requiredFields.all (fun k => dictHasKey d2 k) then some d2 else none
  else none

/-- Model of the `repPdEndDt` lookup (lines 197-203). -/
def periodOfReport (root : Xml) : Option String :=
  match findDesc root ⟨nportNs, "repPdEndDt"⟩ with
  | some el =>
    match el.text with
    | some t => if t ≠ "" then some (pyStrip t) else none
    | none => none
  | none => none

/-- One metadata lookup inside `varInfo` (lines 210-223): namespaced find with
un-namespaced fallback, then `.text.strip()`.  The outer `none` models the
`AttributeError` the source raises when the element exists with `text=None`
(`None.strip()`), which aborts the whole parse via the enclosing `except`. -/
def varMetaName (vs : Xml) (q : String) : Option (Option String) :=
  match findDesc vs ⟨nportNs, q⟩ <|> findDesc vs ⟨"", q⟩ with
  | none => some none
  | some el =>
    match el.text with
    | none => none
    | some t => some (some (pyStrip t))

/-- Model of the `varInfo` metadata section (lines 206-223): designated index
name and identifier; `none` models the exception path. -/
def varMeta (root : Xml) : Option (Option String × Option String) :=
  match findDesc root ⟨nportNs, "varInfo"⟩ with
  | none => some (none, none)
  | some vs => do
    let iname ← varMetaName vs "nameDesignatedIndex"
    let iid ← varMetaName vs "indexIdentifier"
    pure (iname, iid)

/-- Candidate entry paths `investment_paths` (lines 226-233), all resolved in
the nport namespace. -/
def investmentPaths : List String :=
  ["invstOrSec", "derivativeInstrument", "derivative", "investment",
   "security", "holding"]

/-- Main extraction loops of `_parse_nport_xml_specific` (lines 225-253):
enumerate candidates over every path, extract, and attach the filing-level
metadata to each produced entry (overwriting any entry-level values). -/
def parseBodySpecific (root : Xml) (tk url : String) : List Dict :=
  let period := periodOfReport root
  match varMeta root with
  | none => []
  | some (iname, iid) =>
    investmentPaths.flatMap (fun p =>
      (findAllDesc root ⟨nportNs, p⟩).filterMap (fun e =>
        (extractSpecificSwapInfo e tk url).map (fun d =>
          dictSet (dictSet (dictSet d "period_of_report" (pyOfOpt period))
            "index_name" (pyOfOpt iname)) "index_identifier" (pyOfOpt iid))))

/-- Model of `_parse_nport_xml_specific` (lines 168-260).  The `Except` input
stands for `ET.fromstring`: `.error` is a structural `ParseError`, caught at
lines 255-256 with the (empty) accumulator returned.  With a series filter,
a missing or non-matching `seriesId` element returns empty immediately
(lines 190-194). -/
def parseNportXmlSpecific (content : Except String Xml) (tk url : String)
    (seriesId : Option String) : List Dict :=
  match content with
  | .error _ => []
  | .ok root =>
    match seriesId with
    | some sid =>
      match findDesc root ⟨nportNs, "seriesId"⟩ with
      | none => []
      | some el => if el.text = some sid then parseBodySpecific root tk url else []
    | none => parseBodySpecific root tk url

/-- Row of the `swap_data` table created by `setup_database` in
`etf_swap_extractor_manual.py` (lines 39-56), without the autoincrement id and
`extracted_date` bookkeeping columns. -/
structure Row where
  ticker : PyVal
  filing_date : PyVal
  period_of_report : PyVal
  index_name : PyVal
  index_identifier : PyVal
  counterparty_name : PyVal
  fixed_or_floating : PyVal
  floating_rt_index : PyVal
  floating_rt_spread : PyVal
  notional_amt : PyVal
  filing_url : PyVal
deriving DecidableEq, Repr

/-- Conflict test for `UNIQUE(ticker, filing_date, counterparty_name,
notional_amt)` (line 54).  Per SQLite semantics a `NULL` in a unique column
never conflicts, hence the non-`NULL` requirements. -/
def sameKeyB (a b : Row) : Bool :=
  decide (a.ticker = b.ticker) && decide (a.filing_date = b.filing_date) &&
  decide (a.counterparty_name = b.counterparty_name) &&
  decide (a.notional_amt = b.notional_amt) &&
  decide (a.counterparty_name ≠ PyVal.none_) &&
  decide (a.notional_amt ≠ PyVal.none_)

/-- SQLite `INSERT OR REPLACE`: delete every conflicting row, then append the
new row (it receives a fresh rowid, hence the append at the end). -/
def insertOrReplaceRow (tbl : List Row) (r : Row) : List Row :=
  tbl.filter (fun x => !sameKeyB x r) ++ [r]

/-- Row construction of one loop iteration of `save_swap_data_specific`
(lines 373-399): `swap['ticker']` raises `KeyError` when absent and a `NULL`
ticker violates `NOT NULL`; both errors are caught per-swap (lines 397-399)
and skip the row, modelled as `none`.  `swap_period` is the Python `or`-chain
of line 376. -/
def mkRowSpec (s : Dict) (fd : String) (pr : Option String) : Option Row :=
  match dictGet s "ticker" with
  | none => none
  | some tv =>
    if tv = PyVal.none_ then none
    else
      some
        { ticker := tv
          filing_date := .str fd
          period_of_report :=
            pyOr (dictGetD s "period_of_report" .none_) (pyOr (pyOfOpt pr) (.str fd))
          index_name := dictGetD s "index_name" .none_
          index_identifier := dictGetD s "index_identifier" .none_
          counterparty_name := dictGetD s "counterparty_name" .none_
          fixed_or_floating := dictGetD s "fixed_or_floating" .none_
          floating_rt_index := dictGetD s "floating_rt_index" .none_
          floating_rt_spread := dictGetD s "floating_rt_spread" .none_
          notional_amt := dictGetD s "notional_amt" .none_
          filing_url := dictGetD s "filing_url" .none_ }

/-- One iteration of the save loop of `save_swap_data_specific`. -/
def saveStepSpecific (fd : String) (pr : Option String) (tbl : List Row)
    (s : Dict) : List Row :=
  match mkRowSpec s fd pr with
  | none => tbl
  | some r => insertOrReplaceRow tbl r

/-- Model of `save_swap_data_specific` (lines 368-402): upsert each swap dict
in order via `INSERT OR REPLACE`. -/
def saveSwapDataSpecific (swaps : List Dict) (fd : String) (pr : Option String)
    (tbl : List Row) : List Row :=
  swaps.foldl (saveStepSpecific fd pr) tbl

/-- Batching of `process_ticker_xml` (lines 143-147): slices of 100 entries in
order. -/
def chunks100 : List Dict → List (List Dict)
  | [] => []
  | x :: xs => ((x :: xs).take 100) :: chunks100 ((x :: xs).drop 100)
termination_by l => l.length
decreasing_by
  simp only [List.length_drop, List.length_cons]
  omega

/-- Chunked saving as performed by `process_ticker_xml`: one
`save_swap_data_specific` call per batch of 100. -/
def saveChunked (swaps : List Dict) (fd : String) (pr : Option String)
    (tbl : List Row) : List Row :=
  (chunks100 swaps).foldl (fun t batch => saveSwapDataSpecific batch fd pr t) tbl

/-- Model of `clear_ticker_data` (lines 606-613): `DELETE FROM swap_data WHERE
ticker = ?`. -/
def clearTicker (tbl : List Row) (tk : String) : List Row :=
  tbl.filter (fun r => !decide (r.ticker = PyVal.str tk))

/-- One filing as seen by `process_ticker`: the filing date and url from the
locator together with the fetch outcome for that url (`.error` standing for
the timeout / non-200 / request-exception / `ParseError` paths of
`process_ticker_xml`, all of which save nothing). -/
structure FilingJob where
  filing_date : String
  url : String
  content : Except String Xml

/-- Model of `process_ticker_xml` (lines 117-166): fetch, parse, and — when
the parse produced entries — re-extract `repPdEndDt` and save the entries in
batches of 100. -/
def processTickerXml (tbl : List Row) (tk : String) (job : FilingJob)
    (seriesId : Option String) : List Row :=
  match job.content with
  | .error _ => tbl
  | .ok root =>
    let swaps := parseNportXmlSpecific (.ok root) tk job.url seriesId
    if swaps.isEmpty then tbl
    else saveChunked swaps job.filing_date (periodOfReport root) tbl

/-- Model of `process_ticker` (lines 500-523): purge the ticker's rows, then
process every located filing in order (the batch-of-5 grouping with sleeps
only paces requests and does not change the save order). -/
def processTicker (tbl : List Row) (tk : String) (jobs : List FilingJob)
    (seriesId : Option String) : List Row :=
  jobs.foldl (fun t j => processTickerXml t tk j seriesId) (clearTicker tbl tk)

/-- Row of the `ticker_mappings` table. -/
structure TickerMapping where
  ticker : PyVal
  cik : PyVal
  company_name : PyVal
  series_id : PyVal
  start_date : PyVal
deriving DecidableEq, Repr

/-- State of the SQLite database file: each table is `none` while absent. -/
structure DBState where
  swap_data : Option (List Row)
  ticker_mappings : Option (List TickerMapping)

/-- Model of `setup_database` (manual extractor, lines 29-71, identical in
`etf_swap_extractor_manual_fixed.py`): `DROP TABLE IF EXISTS` on both tables,
then `CREATE TABLE IF NOT EXISTS` for both. -/
def setup_database (db : DBState) : DBState :=
  let db := { db with swap_data := none }
  let db := { db with ticker_mappings := none }
  let db := { db with swap_data := some ((db.swap_data).getD []) }
  { db with ticker_mappings := some ((db.ticker_mappings).getD []) }

/-- Model of `ETFSwapDataExtractor.__init__` (lines 20-27): constructing the
extractor immediately runs `setup_database` against the configured database. -/
def extractorInit (db : DBState) : DBState := setup_database db

/-- Namespaced find for the unprefixed paths of `etf_swap_extractor.py`:
resolved against the default-namespace entry when the parser registered one
(lines 330-333), raw tag match otherwise. -/
def findDesc2 (e : Xml) (dns : Option String) (n : String) : Option Xml :=
  findDesc e ⟨dns.getD "", n⟩

/-- Text-valued field step of `_extract_swap_info`: when the element was
found, the dict key is set to `elem.text` (possibly `None`). -/
def textField (d : Dict) (key : String) (el : Option Xml) : Dict :=
  match el with
  | none => d
  | some el => dictSet d key (pyOfOpt el.text)

/-- Float-valued field step of `_extract_swap_info`: `float(elem.text)` under
`except ValueError: pass`.  `float(None)` raises `TypeError`, which only the
function-level `except Exception` catches, making the whole extraction return
`None` — modelled by the outer `none`. -/
def floatField (d : Dict) (key : String) (el : Option Xml) : Option Dict :=
  match el with
  | none => some d
  | some el =>
    match el.text with
    | none => none
    | some t =>
      match pyFloat t with
      | some q => some (dictSet d key (.num q))
      | none => some d

/-- Model of `_extract_swap_info` (`etf_swap_extractor.py`, lines 374-437):
per-field find with one fallback tag each, and the loose acceptance gate
`len(swap_info) > 0`. -/
def extractSwapInfo (e : Xml) (dns : Option String) : Option Dict :=
  let d1 := textField [] "counterparty"
    (findDesc2 e dns "counterpartyName" <|> findDesc2 e dns "ctrPtyName")
  match floatField d1 "notional_amount"
      (findDesc2 e dns "notionalAmt" <|> findDesc2 e dns "notional") with
  | none => none
  | some d2 =>
    let d3 := textField d2 "fixed_or_floating"
      (findDesc2 e dns "fixedOrFloating" <|> findDesc2 e dns "rateType")
    let d4 := textField d3 "floating_rate_index"
      (findDesc2 e dns "floatingRtIndex" <|> findDesc2 e dns "floatingRateIndex")
    match floatField d4 "floating_rate_spread"
        (findDesc2 e dns "floatingrtspread" <|> findDesc2 e dns "floatingRateSpread") with
    | none => none
    | some d5 =>
      match floatField d5 "drp"
          (findDesc2 e dns "drp" <|> findDesc2 e dns "deltaRiskPremium") with
      | none => none
      | some d6 => if d6.length > 0 then some d6 else none

/-- Candidate paths `derivative_paths` of `_parse_nport_xml` (lines 337-343). -/
def derivPaths : List String :=
  ["derivativeInstrument", "derivative", "swap", "swapInstrument", "otherDerivInst"]

/-- Model of `_parse_nport_xml` (`etf_swap_extractor.py`, lines 318-372):
register the root's namespace as default when present, scan the derivative
paths, then the `invstOrSec` elements whose `assetCat` is `DC` or `DE`;
`ticker` and `filing_url` are attached to every produced entry.  A structural
`ParseError` (`.error`) returns the empty accumulator (lines 367-368). -/
def parseNportXml (content : Except String Xml) (tk url : String) : List Dict :=
  match content with
  | .error _ => []
  | .ok root =>
    let dns : Option String := if root.tagQ.ns ≠ "" then some root.tagQ.ns else none
    let attach := fun (d : Dict) =>
      dictSet (dictSet d "ticker" (.str tk)) "filing_url" (.str url)
    let fromDeriv := derivPaths.flatMap (fun p =>
      (findAllDesc root ⟨dns.getD "", p⟩).filterMap (fun e =>
        (extractSwapInfo e dns).map attach))
    let fromInvst := (findAllDesc root ⟨dns.getD "", "invstOrSec"⟩).filterMap (fun e =>
      match findDesc2 e dns "assetCat" with
      | some ac =>
        if ac.text = some "DC" ∨ ac.text = some "DE" then
          (extractSwapInfo e dns).map attach
        else none
      | none => none)
    fromDeriv ++ fromInvst

/-- Row of the `swap_data` table of `etf_swap_extractor.py` (lines 48-64). -/
structure Row2 where
  ticker : PyVal
  filing_date : PyVal
  report_date : PyVal
  swap_counterparty : PyVal
  notional_amount : PyVal
  fixed_or_floating : PyVal
  floating_rate_index : PyVal
  floating_rate_spread : PyVal
  drp : PyVal
  filing_url : PyVal
deriving DecidableEq, Repr

/-- Conflict test for `UNIQUE(ticker, filing_date, swap_counterparty,
notional_amount)` (line 63), with SQLite's NULLs-never-conflict semantics. -/
def sameKey2B (a b : Row2) : Bool :=
  decide (a.ticker = b.ticker) && decide (a.filing_date = b.filing_date) &&
  decide (a.swap_counterparty = b.swap_counterparty) &&
  decide (a.notional_amount = b.notional_amount) &&
  decide (a.swap_counterparty ≠ PyVal.none_) &&
  decide (a.notional_amount ≠ PyVal.none_)

/-- Row built by one iteration of `save_swap_data` (lines 447-462): values via
`data.get`, `report_date` defaulting to the filing date through Python `or`. -/
def mkRow2 (s : Dict) (fd : String) (rd : Option String) : Row2 :=
  { ticker := dictGetD s "ticker" .none_
    filing_date := .str fd
    report_date := pyOr (pyOfOpt rd) (.str fd)
    swap_counterparty := dictGetD s "counterparty" .none_
    notional_amount := dictGetD s "notional_amount" .none_
    fixed_or_floating := dictGetD s "fixed_or_floating" .none_
    floating_rate_index := dictGetD s "floating_rate_index" .none_
    floating_rate_spread := dictGetD s "floating_rate_spread" .none_
    drp := dictGetD s "drp" .none_
    filing_url := dictGetD s "filing_url" .none_ }

/-- SQLite `INSERT OR IGNORE`: a row violating any constraint — `NOT NULL` on
`ticker`, or the uniqueness key — is silently skipped; otherwise appended. -/
def insertOrIgnoreRow2 (tbl : List Row2) (r : Row2) : List Row2 :=
  if r.ticker = PyVal.none_ then tbl
  else if tbl.any (fun x => sameKey2B x r) then tbl
  else tbl ++ [r]

/-- Model of `save_swap_data` (`etf_swap_extractor.py`, lines 439-470):
insert each swap dict in order via `INSERT OR IGNORE`. -/
def saveSwapData (swaps : List Dict) (fd : String) (rd : Option String)
    (tbl : List Row2) : List Row2 :=
  swaps.foldl (fun t s => insertOrIgnoreRow2 t (mkRow2 s fd rd)) tbl

/-- Stable descending insertion by a string key: an element moves past every
element with a greater-or-equal key, so equal keys keep their encounter
order — the order guarantee of Python's stable `sort(..., reverse=True)`. -/
def insertDescBy {α : Type} (key : α → String) (r : α) : List α → List α
  | [] => [r]
  | x :: xs => if key r ≤ key x then x :: insertDescBy key r xs else r :: x :: xs

/-- Model of `list.sort(key=..., reverse=True)` / `sorted(..., reverse=True)`:
stable sort descending by the string key. -/
def sortDescBy {α : Type} (key : α → String) (l : List α) : List α :=
  l.foldl (fun acc r => insertDescBy key r acc) []

/-- Filing reference produced by `get_historical_filings` (lines 466-469). -/
structure FilingRef where
  filing_date : String
  filing_url : String
deriving DecidableEq, Repr

/-- One row of the `filings.recent` parallel arrays (`form`,
`accessionNumber`, `filingDate`) of the SEC submissions JSON. -/
structure RecentRow where
  form : String
  accessionNumber : String
  filingDate : String
deriving DecidableEq, Repr

/-- One entry of the `filings.files` array; fields are read with `.get` and
may be absent. -/
structure FileInfo where
  form : Option String
  filingDate : Option String
  accessionNumber : Option String
deriving DecidableEq, Repr

/-- The parsed SEC submissions JSON, as consumed by
`get_historical_filings`. -/
structure Submissions where
  recent : List RecentRow
  files : List FileInfo
deriving DecidableEq, Repr

/-- Model of `accession_numbers[i].replace('-', '')`. -/
def stripDashes (s : String) : String :=
  String.mk (s.toList.filter (fun c => c ≠ '-'))

/-- The deterministic archive URL of lines 465 and 481; `int(cik)` drops
leading zeros of a numeric registrant id. -/
def archiveUrl (cik acc : String) : String :=
  "https://www.sec.gov/Archives/edgar/data/" ++ toString ((strToNat? cik).getD 0)
    ++ "/" ++ acc ++ "/primary_doc.xml"

/-- Date-window test `start_date_dt <= filing_dt <= end_date_dt`.  The source
compares `dateutil`-parsed datetimes; on the ISO `YYYY-MM-DD` strings of the
submissions feed this coincides with lexicographic string comparison, which is
how dates are modelled throughout (a malformed date raises in the source and
the enclosing handler returns the empty — hence still sorted — list). -/
def inWindow (sd ed d : String) : Bool := decide (sd ≤ d) && decide (d ≤ ed)

/-- Model of `get_historical_filings` (`etf_swap_extractor_manual.py`, lines
434-498): filter both submission tables to `NPORT-P` forms inside the date
window, build archive URLs, and sort descending by filing date (line 487).
Request failures (`.error`) return empty. -/
def getHistoricalFilings (resp : Except String Submissions) (cik sd ed : String) :
    List FilingRef :=
  match resp with
  | .error _ => []
  | .ok data =>
    let fromRecent := data.recent.filterMap (fun r =>
      if r.form = "NPORT-P" then
        if inWindow sd ed r.filingDate then
          let acc := stripDashes r.accessionNumber
          if acc ≠ "" then some ⟨r.filingDate, archiveUrl cik acc⟩ else none
        else none
      else none)
    let fromFiles := data.files.filterMap (fun fi =>
      if fi.form = some "NPORT-P" then
        match fi.filingDate with
        | none => none
        | some d =>
          if d ≠ "" then
            if inWindow sd ed d then
              let acc := stripDashes ((fi.accessionNumber).getD "")
              if acc ≠ "" then some ⟨d, archiveUrl cik acc⟩ else none
            else none
          else none
      else none)
    sortDescBy (fun f => f.filing_date) (fromRecent ++ fromFiles)

/-- Filing reference produced by `get_nport_filings`
(`etf_swap_extractor.py`, lines 273-276). -/
structure FilingRef2 where
  date : String
  url : String
deriving DecidableEq, Repr

/-- Shape check corresponding to `datetime.strptime(s, '%Y-%m-%d')`
succeeding (digit placement; the source additionally validates calendar
ranges, which only affects which inputs abort the collection loop, never the
final sort). -/
def isIsoDate (s : String) : Bool :=
  match s.toList with
  | [y1, y2, y3, y4, '-', m1, m2, '-', d1, d2] =>
    y1.isDigit && y2.isDigit && y3.isDigit && y4.isDigit &&
    m1.isDigit && m2.isDigit && d1.isDigit && d2.isDigit
  | _ => false

/-- Collection loop of `get_nport_filings` (lines 264-275): for each
`filing` element take `filingDate` and `filingHREF` children; a `strptime`
failure or a `None` text raises, aborting the loop with the entries collected
so far (the `except` at line 278 is outside the loop). -/
def collectNportFilings (base start : String) : List Xml → List FilingRef2
  | [] => []
  | f :: rest =>
    match findChild f ⟨"", "filingDate"⟩, findChild f ⟨"", "filingHREF"⟩ with
    | some de, some he =>
      (match de.text with
       | none => []
       | some dt =>
         if isIsoDate dt then
           if start ≤ dt then
             match he.text with
             | none => []
             | some href => ⟨dt, base ++ href⟩ :: collectNportFilings base start rest
           else collectNportFilings base start rest
         else [])
    | _, _ => collectNportFilings base start rest

/-- Model of `get_nport_filings` (`etf_swap_extractor.py`, lines 239-281):
collect `filing` entries from the browse-edgar XML and return them sorted
descending by date (line 281) — the final `sorted(...)` runs on every path,
including after a caught exception. -/
def getNportFilings (resp : Except String Xml) (base start : String) :
    List FilingRef2 :=
  sortDescBy (fun f => f.date)
    (match resp with
     | .error _ => []
     | .ok root => collectNportFilings base start (findAllDesc root ⟨"", "filing"⟩))

/-- Tag allow-list `swap_tags` of `extract_swap_data`
(`tsll_swap_extractor_fixed.py`, lines 186-192). -/
def tsllSwapTags : List String :=
  ["derivativeInstrument", "swap", "totalReturnSwap", "equitySwap", "instrument"]

/-- Text keyword list `swap_keywords` (line 203). -/
def tsllSwapKeywords : List String :=
  ["total return swap", "equity swap", "return swap", "swap agreement"]

/-- Model of the guarded `elem.getparent()` call in `find_series_data`
(lines 160-172): `hasattr(elem, 'getparent')` is `False` for
`xml.etree.ElementTree` elements (`getparent` is an lxml-only API), so the
source always assigns `parent = None`. -/
def getparentOpt (_e : Xml) : Option Xml := none

/-- Model of `elem.text and needle in str(elem.text)`. -/
def textContains (e : Xml) (needle : String) : Bool :=
  match e.text with
  | some t => (t ≠ "" : Bool) && containsSub needle.toList t.toList
  | none => false

/-- The scanning loop of `find_series_data` (lines 157-174): an early return
can only happen through a non-`None` parent, so with ElementTree elements the
loop never returns and control falls through to the `return root` fallback. -/
def findSeriesLoop (sid cid : String) : List Xml → Option Xml
  | [] => none
  | e :: rest =>
    let r1 : Option Xml :=
      if textContains e sid then
        match getparentOpt e with
        | some p => if p.iterL.any (fun c => textContains c cid) then some p else none
        | none => none
      else none
    match r1 with
    | some p => some p
    | none =>
      let r2 : Option Xml :=
        if textContains e cid then
          match getparentOpt e with
          | some p => some p
          | none => none
        else none
      match r2 with
      | some p => some p
      | none => findSeriesLoop sid cid rest

/-- Model of `find_series_data` (`tsll_swap_extractor_fixed.py`, lines
154-180): scan for the series/class ids, and — per the comment "If specific
IDs not found, return root for broader search" — fall back to the WHOLE
document when they are absent. -/
def findSeriesData (root : Xml) (sid cid : String) : Xml :=
  match findSeriesLoop sid cid root.iterL with
  | some r => r
  | none => root

/-- Child-scanning step of `parse_swap_element` (lines 233-241):
`float(child.text or 0)` under `except (ValueError, TypeError): pass`, and
description updates from `name`/`description`-tagged children. -/
def psChild (d : Dict) (c : Xml) : Dict :=
  let tl := toLowerL (tagChars c.tagQ)
  let d1 :=
    if containsSub "value".toList tl || containsSub "amount".toList tl then
      match c.text with
      | some t =>
        if t ≠ "" then
          match pyFloat t with
          | some q => dictSet d "value" (.num q)
          | none => d
        else dictSet d "value" (.num 0)
      | none => dictSet d "value" (.num 0)
    else d
  if containsSub "description".toList tl || containsSub "name".toList tl then
    dictSet d1 "description" (pyOr (pyOfOpt c.text) (dictGetD d1 "description" .none_))
  else d1

/-- Model of `parse_swap_element` (lines 222-246). -/
def parseSwapElement (e : Xml) (fd : String) : Option Dict :=
  let d0 : Dict :=
    [("date", .str fd),
     ("description", pyOr (pyOfOpt e.text) (.str "Unknown swap")),
     ("value", .num 0),
     ("tag", .str (String.mk (tagChars e.tagQ)))]
  some (e.children.foldl psChild d0)

/-- Model of `parse_text_swap_reference` (lines 248-259); the caller only
reaches it with truthy text. -/
def parseTextSwapReference (e : Xml) (fd : String) : Option Dict :=
  match e.text with
  | none => none
  | some t =>
    some [("date", .str fd),
          ("description", .str (if t.length > 100 then String.mk (t.toList.take 100) ++ "..." else t)),
          ("value", .num 0),
          ("tag", .str (String.mk (tagChars e.tagQ))),
          ("type", .str "text_reference")]

/-- Model of `extract_swap_data` (lines 182-220): tag-substring matches over
the whole subtree for each allow-listed tag, plus one text-reference record
per matching keyword (the inner keyword loop has no `break`). -/
def extractSwapData (x : Xml) (fd : String) : List Dict :=
  let tagHits := tsllSwapTags.flatMap (fun tag =>
    (x.iterL.filter (fun e =>
      containsSub (toLowerL tag.toList) (toLowerL (tagChars e.tagQ)))).filterMap
      (fun e => parseSwapElement e fd))
  let textHits := x.iterL.flatMap (fun e =>
    match e.text with
    | some t =>
      if t ≠ "" then
        (tsllSwapKeywords.filter (fun kw =>
          containsSub kw.toList (toLowerL t.toList))).filterMap
          (fun _ => parseTextSwapReference e fd)
      else []
    | none => [])
  tagHits ++ textHits

/-- The series gate condition of `_parse_nport_xml_specific` lines 191-193:
`series_elem is None or series_elem.text != series_id`. -/
def seriesMismatch (root : Xml) (sid : String) : Bool :=
  match findDesc root ⟨nportNs, "seriesId"⟩ with
  | none => true
  | some el => decide (el.text ≠ some sid)

/-- Attribute set of the concrete `floatingPmntDesc` fixture element. -/
def fpdAttrs : List (String × String) :=
  [("fixedOrFloating", "floating"), ("floatingRtIndex", "OBFR"),
   ("floatingRtSpread", "0.15")]

/-- Concrete investment entry exercising the full strict extraction pipeline:
counterparty, notional with thousands separators, and a floating payment
description carrying all three attributes. -/
def eGood : Xml :=
  .elem ⟨nportNs, "invstOrSec"⟩ [] none (.ofList
    [.elem ⟨nportNs, "counterpartyName"⟩ [] (some "BANK A") .nil,
     .elem ⟨nportNs, "notionalAmt"⟩ [] (some "1,000,000.00") .nil,
     .elem ⟨nportNs, "derivativeInfo"⟩ [] none (.ofList
       [.elem ⟨nportNs, "swapDeriv"⟩ [] none (.ofList
         [.elem ⟨nportNs, "floatingPmntDesc"⟩ fpdAttrs none .nil])])])

/-- Concrete entry holding only a counterparty child, in an unnamespaced
document. -/
def eLoose : Xml :=
  .elem ⟨"", "invstOrSec"⟩ [] none (.ofList
    [.elem ⟨"", "counterpartyName"⟩ [] (some "BANK A") .nil])

/-- Concrete document carrying a derivative entry but no series identifier
text anywhere. -/
def docTsll : Xml :=
  .elem ⟨nportNs, "edgarSubmission"⟩ [] none (.ofList
    [.elem ⟨nportNs, "derivativeInstrument"⟩ [] none .nil])

/-- Concrete document whose `seriesId` text differs from the filter used in
the series-gate witness. -/
def docSeries : Xml :=
  .elem ⟨nportNs, "edgarSubmission"⟩ [] none (.ofList
    [.elem ⟨nportNs, "seriesId"⟩ [] (some "S000099999") .nil, eGood])

/-- Concrete document containing none of the swap-indicating keywords. -/
def docPlain : Xml :=
  .elem ⟨nportNs, "edgarSubmission"⟩ [] (some "hello") (.ofList
    [.elem ⟨nportNs, "invstOrSec"⟩ [] (some "plain equity") .nil])

/-- First of two swap dicts sharing the dedup key (manual-extractor key
names). -/
def dSpecA : Dict :=
  [("ticker", .str "TSLL"), ("counterparty_name", .str "BANK A"),
   ("notional_amt", .num 1000000), ("floating_rt_index", .str "OBFR")]

/-- Second swap dict: same dedup key as `dSpecA`, different index value. -/
def dSpecB : Dict :=
  [("ticker", .str "TSLL"), ("counterparty_name", .str "BANK A"),
   ("notional_amt", .num 1000000), ("floating_rt_index", .str "FEDL01")]

/-- First of two swap dicts sharing the dedup key (`etf_swap_extractor.py`
key names). -/
def dIgnA : Dict :=
  [("ticker", .str "TSLL"), ("counterparty", .str "BANK A"),
   ("notional_amount", .num 1000000), ("floating_rate_index", .str "OBFR")]

/-- Second swap dict: same dedup key as `dIgnA`, different index value. -/
def dIgnB : Dict :=
  [("ticker", .str "TSLL"), ("counterparty", .str "BANK A"),
   ("notional_amount", .num 1000000), ("floating_rate_index", .str "FEDL01")]

/-- Concrete submissions feed with two NPORT-P filings listed oldest-first. -/
def subsW : Submissions :=
  { recent :=
      [{ form := "NPORT-P", accessionNumber := "0001-23-456", filingDate := "2024-02-29" },
       { form := "NPORT-P", accessionNumber := "0001-23-457", filingDate := "2024-05-30" }],
    files :=
      [{ form := some "NPORT-P", filingDate := some "2023-11-30",
         accessionNumber := some "0001-23-455" }] }

/-- Concrete browse-edgar response with two filing entries. -/
def browseW : Xml :=
  .elem ⟨"", "results"⟩ [] none (.ofList
    [.elem ⟨"", "filing"⟩ [] none (.ofList
      [.elem ⟨"", "filingDate"⟩ [] (some "2024-02-29") .nil,
       .elem ⟨"", "filingHREF"⟩ [] (some "/Archives/a.htm") .nil]),
     .elem ⟨"", "filing"⟩ [] none (.ofList
      [.elem ⟨"", "filingDate"⟩ [] (some "2024-05-30") .nil,
       .elem ⟨"", "filingHREF"⟩ [] (some "/Archives/b.htm") .nil])])

/-- The dict produced by the strict extractor on `eGood`. -/
def dGood : Dict :=
  [("ticker", .str "TSLL"), ("filing_url", .str "u"),
   ("counterparty_name", .str "BANK A"), ("notional_amt", .num 1000000),
   ("fixed_or_floating", .str "floating"), ("floating_rt_index", .str "OBFR"),
   ("floating_rt_spread", .num (mkRat 3 20))]

/-- The `floatingPmntDesc` element inside `eGood`. -/
def fpGood : Xml := .elem ⟨nportNs, "floatingPmntDesc"⟩ fpdAttrs none .nil

/-- Row produced by `mkRowSpec` on `dSpecA`. -/
def rowSpecA : Row :=
  { ticker := .str "TSLL", filing_date := .str "2024-01-01",
    period_of_report := .str "2024-01-01", index_name := .none_,
    index_identifier := .none_, counterparty_name := .str "BANK A",
    fixed_or_floating := .none_, floating_rt_index := .str "OBFR",
    floating_rt_spread := .none_, notional_amt := .num 1000000,
    filing_url := .none_ }

/-- Row produced by `mkRowSpec` on `dSpecB`. -/
def rowSpecB : Row :=
  { ticker := .str "TSLL", filing_date := .str "2024-01-01",
    period_of_report := .str "2024-01-01", index_name := .none_,
    index_identifier := .none_, counterparty_name := .str "BANK A",
    fixed_or_floating := .none_, floating_rt_index := .str "FEDL01",
    floating_rt_spread := .none_, notional_amt := .num 1000000,
    filing_url := .none_ }

/-! Helper lemmas about the substring, dict and table primitives. -/

theorem pfx_iff (n h : List Char) : pfx n h = true ↔ ∃ t, h = n ++ t := by
  induction n generalizing h with
  | nil => simp [pfx]
  | cons a as ih =>
    cases h with
    | nil => simp [pfx]
    | cons b bs =>
      simp only [pfx, Bool.and_eq_true, decide_eq_true_eq, ih]
      constructor
      · rintro ⟨rfl, t, rfl⟩; exact ⟨t, rfl⟩
      · rintro ⟨t, ht⟩
        obtain ⟨rfl, rfl⟩ := by simpa using ht
        exact ⟨rfl, t, rfl⟩

theorem containsSub_iff (n h : List Char) :
    containsSub n h = true ↔ ∃ p t, h = p ++ n ++ t := by
  induction h with
  | nil =>
    simp only [containsSub, List.isEmpty_iff]
    constructor
    · rintro rfl; exact ⟨[], [], rfl⟩
    · rintro ⟨p, t, ht⟩
      rcases List.append_eq_nil.mp (List.append_eq_nil.mp ht.symm).1 with ⟨_, h2⟩
      exact h2
  | cons c t ih =>
    simp only [containsSub, Bool.or_eq_true, pfx_iff, ih]
    constructor
    · rintro (⟨u, hu⟩ | ⟨p, u, rfl⟩)
      · exact ⟨[], u, by simpa using hu⟩
      · exact ⟨c :: p, u, rfl⟩
    · rintro ⟨p, u, hpu⟩
      cases p with
      | nil => exact Or.inl ⟨u, by simpa using hpu⟩
      | cons x xs =>
        right
        obtain ⟨rfl, rfl⟩ : c = x ∧ t = xs ++ n ++ u := by simpa using hpu
        exact ⟨xs, u, rfl⟩

theorem dictGet_set_self (d : Dict) (k : String) (v : PyVal) :
    dictGet (dictSet d k v) k = some v := by
  induction d with
  | nil => simp [dictSet, dictGet, List.find?]
  | cons p rest ih =>
    by_cases hp : p.1 = k
    · simp [dictSet, hp, dictGet, List.find?]
    · simp only [dictSet, if_neg hp]
      simpa [dictGet, List.find?, hp] using ih

theorem dictGet_set_ne (d : Dict) (k k' : String) (v : PyVal) (h : k' ≠ k) :
    dictGet (dictSet d k v) k' = dictGet d k' := by
  induction d with
  | nil => simp [dictSet, dictGet, List.find?, Ne.symm h]
  | cons p rest ih =>
    by_cases hp : p.1 = k
    · subst hp
      simp [dictSet, dictGet, List.find?_cons, Ne.symm h]
    · simp only [dictSet, if_neg hp]
      by_cases hp' : p.1 = k'
      · simp [dictGet, List.find?_cons, hp']
      · simpa [dictGet, List.find?_cons, hp'] using ih

theorem dictHasKey_of_get (d : Dict) (k : String) (v : PyVal)
    (h : dictGet d k = some v) : dictHasKey d k = true := by
  induction d with
  | nil => simp [dictGet, List.find?] at h
  | cons p rest ih =>
    by_cases hp : p.1 = k
    · simp [dictHasKey, hp]
    · rw [dictGet, List.find?_cons_of_neg _ (by simpa using hp)] at h
      simp only [dictHasKey, List.any_cons, Bool.or_eq_true, decide_eq_true_eq]
      exact Or.inr (by simpa [dictHasKey] using ih h)

mutual

theorem serializeL_infix_of_mem_iterL (x e : Xml) (h : e ∈ x.iterL) :
    ∃ p t, serializeL x = p ++ serializeL e ++ t := by
  cases x with
  | elem tg a s c =>
    rw [Xml.iterL] at h
    rcases List.mem_cons.mp h with he | h2
    · exact ⟨[], [], by simp [he]⟩
    · obtain ⟨p, t, hpt⟩ := serializeF_infix_of_mem c e h2
      refine ⟨'<' :: tagChars tg ++ attrsChars a ++ '>' :: (s.getD "").toList ++ p,
        t ++ '<' :: '/' :: tagChars tg ++ ['>'], ?_⟩
      rw [serializeL, hpt]
      simp

theorem serializeF_infix_of_mem (c : XmlForest) (e : Xml)
    (h : e ∈ c.iterF) : ∃ p t, serializeF c = p ++ serializeL e ++ t := by
  cases c with
  | nil => simp [XmlForest.iterF] at h
  | cons x xs =>
    rw [XmlForest.iterF] at h
    rcases List.mem_append.mp h with h1 | h2
    · obtain ⟨p, t, hpt⟩ := serializeL_infix_of_mem_iterL x e h1
      exact ⟨p, t ++ serializeF xs, by rw [serializeF, hpt]; simp⟩
    · obtain ⟨p, t, hpt⟩ := serializeF_infix_of_mem xs e h2
      exact ⟨serializeL x ++ p, t, by rw [serializeF, hpt]; simp⟩

end

theorem hasIndicators_of_infix (e root : Xml) (p t : List Char)
    (hser : serializeL root = p ++ serializeL e ++ t)
    (he : hasIndicators (serializeL e) = true) :
    hasIndicators (serializeL root) = true := by
  unfold hasIndicators at he ⊢
  rcases List.any_eq_true.mp he with ⟨ind, hind, hsub⟩
  refine List.any_eq_true.mpr ⟨ind, hind, ?_⟩
  rcases (containsSub_iff _ _).mp hsub with ⟨p2, t2, hsplit⟩
  refine (containsSub_iff _ _).mpr ⟨toLowerL p ++ p2, t2 ++ toLowerL t, ?_⟩
  rw [hser]
  simp only [toLowerL, List.map_append] at hsplit ⊢
  rw [hsplit]
  simp

theorem hasIndicators_descendant_false (root e : Xml)
    (h : e ∈ root.descendants) (hroot : hasIndicators (serializeL root) = false) :
    hasIndicators (serializeL e) = false := by
  by_contra hne
  have he : hasIndicators (serializeL e) = true := by
    cases hh : hasIndicators (serializeL e) with
    | true => rfl
    | false => exact absurd hh hne
  obtain ⟨p, t, hpt⟩ := serializeF_infix_of_mem root.childrenF e h
  cases root with
  | elem tg a s c =>
    have : hasIndicators (serializeL (.elem tg a s c)) = true := by
      refine hasIndicators_of_infix e _
        ('<' :: tagChars tg ++ attrsChars a ++ '>' :: (s.getD "").toList ++ p)
        (t ++ '<' :: '/' :: tagChars tg ++ ['>']) ?_ he
      rw [serializeL]
      rw [show (Xml.elem tg a s c).childrenF = c from rfl] at hpt
      rw [hpt]
      simp
    rw [hroot] at this
    exact Bool.false_ne_true this

theorem extractSpecific_eq_none_of_no_indicators (e : Xml) (tk url : String)
    (h : hasIndicators (serializeL e) = false) :
    extractSpecificSwapInfo e tk url = none := by
  unfold extractSpecificSwapInfo
  rw [h]
  simp

theorem parseBodySpecific_eq_nil_of_no_indicators (root : Xml) (tk url : String)
    (h : hasIndicators (serializeL root) = false) :
    parseBodySpecific root tk url = [] := by
  unfold parseBodySpecific
  cases hv : varMeta root with
  | none => rfl
  | some meta =>
    obtain ⟨iname, iid⟩ := meta
    simp only
    rw [List.flatMap_eq_nil_iff]
    intro p hp
    rw [List.filterMap_eq_nil_iff]
    intro e he
    have hmem : e ∈ root.descendants := List.mem_of_mem_filter he
    rw [extractSpecific_eq_none_of_no_indicators e tk url
      (hasIndicators_descendant_false root e hmem h)]
    rfl

theorem mem_insertDescBy {α : Type} (key : α → String) (r y : α) (l : List α) :
    y ∈ insertDescBy key r l ↔ y = r ∨ y ∈ l := by
  induction l with
  | nil => simp [insertDescBy]
  | cons x xs ih =>
    rw [insertDescBy]
    split
    · simp only [List.mem_cons, ih]
      tauto
    · simp only [List.mem_cons]

theorem pairwise_insertDescBy {α : Type} (key : α → String) (r : α) (l : List α)
    (h : l.Pairwise (fun a b => key b ≤ key a)) :
    (insertDescBy key r l).Pairwise (fun a b => key b ≤ key a) := by
  induction l with
  | nil => simp [insertDescBy]
  | cons x xs ih =>
    rw [List.pairwise_cons] at h
    obtain ⟨hx, hxs⟩ := h
    rw [insertDescBy]
    split
    · rename_i hle
      rw [List.pairwise_cons]
      refine ⟨?_, ih hxs⟩
      intro y hy
      rcases (mem_insertDescBy key r y xs).mp hy with rfl | hmem
      · exact hle
      · exact hx y hmem
    · rename_i hgt
      have hxr : key x ≤ key r := le_of_not_le hgt
      rw [List.pairwise_cons]
      refine ⟨?_, List.pairwise_cons.mpr ⟨hx, hxs⟩⟩
      intro y hy
      rcases List.mem_cons.mp hy with rfl | hmem
      · exact hxr
      · exact le_trans (hx y hmem) hxr

theorem pairwise_sortDescBy {α : Type} (key : α → String) (l : List α) :
    (sortDescBy key l).Pairwise (fun a b => key b ≤ key a) := by
  suffices h : ∀ acc : List α, acc.Pairwise (fun a b => key b ≤ key a) →
      (l.foldl (fun acc r => insertDescBy key r acc) acc).Pairwise
        (fun a b => key b ≤ key a) by
    exact h [] (by simp)
  induction l with
  | nil => intro acc hacc; simpa using hacc
  | cons x xs ih =>
    intro acc hacc
    exact ih _ (pairwise_insertDescBy key x acc hacc)

theorem filter_filter_of_imp {α : Type} (p q : α → Bool) (l : List α)
    (h : ∀ x, q x = true → p x = true) : (l.filter p).filter q = l.filter q := by
  induction l with
  | nil => rfl
  | cons x xs ih =>
    by_cases hq : q x = true
    · simp [List.filter_cons, h x hq, hq, ih]
    · have hq' : q x = false := by
        cases hqq : q x with
        | true => exact absurd hqq hq
        | false => rfl
      cases hp : p x <;> simp [List.filter_cons, hp, hq', ih]

theorem sameKeyB_iff (a b : Row) : sameKeyB a b = true ↔
    a.ticker = b.ticker ∧ a.filing_date = b.filing_date ∧
    a.counterparty_name = b.counterparty_name ∧ a.notional_amt = b.notional_amt ∧
    a.counterparty_name ≠ PyVal.none_ ∧ a.notional_amt ≠ PyVal.none_ := by
  simp [sameKeyB, and_assoc]

theorem sameKeyB_self_of (r1 r2 : Row) (h : sameKeyB r1 r2 = true) :
    sameKeyB r2 r2 = true := by
  rw [sameKeyB_iff] at h ⊢
  obtain ⟨h1, h2, h3, h4, h5, h6⟩ := h
  exact ⟨rfl, rfl, rfl, rfl, h3 ▸ h5, h4 ▸ h6⟩

theorem sameKeyB_congr (r1 r2 x : Row) (h : sameKeyB r1 r2 = true) :
    sameKeyB x r1 = sameKeyB x r2 := by
  rw [sameKeyB_iff] at h
  obtain ⟨h1, h2, h3, h4, _, _⟩ := h
  simp [sameKeyB, h1, h2, h3, h4]

theorem sameKey2B_iff (a b : Row2) : sameKey2B a b = true ↔
    a.ticker = b.ticker ∧ a.filing_date = b.filing_date ∧
    a.swap_counterparty = b.swap_counterparty ∧
    a.notional_amount = b.notional_amount ∧
    a.swap_counterparty ≠ PyVal.none_ ∧ a.notional_amount ≠ PyVal.none_ := by
  simp [sameKey2B, and_assoc]

theorem sameKey2B_self_of (r1 r2 : Row2) (h : sameKey2B r1 r2 = true) :
    sameKey2B r1 r1 = true := by
  rw [sameKey2B_iff] at h ⊢
  obtain ⟨h1, h2, h3, h4, h5, h6⟩ := h
  exact ⟨rfl, rfl, rfl, rfl, h5, h6⟩

theorem filter_key_filter_not (r2 : Row) (l : List Row) :
    (l.filter (fun x => !sameKeyB x r2)).filter (fun x => sameKeyB x r2) = [] := by
  rw [List.filter_eq_nil_iff]
  intro x hx
  have h2 := (List.mem_filter.mp hx).2
  simp only [Bool.not_eq_true'] at h2
  simp [h2]

theorem saveSpecificPair (tbl : List Row) (s1 s2 : Dict) (fd : String)
    (pr : Option String) (r1 r2 : Row)
    (h1 : mkRowSpec s1 fd pr = some r1) (h2 : mkRowSpec s2 fd pr = some r2)
    (hk : sameKeyB r1 r2 = true) :
    (saveSwapDataSpecific [s1, s2] fd pr tbl).filter (fun x => sameKeyB x r2) =
      [r2] := by
  unfold saveSwapDataSpecific
  simp only [List.foldl_cons, List.foldl_nil]
  unfold saveStepSpecific
  rw [h1, h2]
  unfold insertOrReplaceRow
  rw [List.filter_append, List.filter_append]
  have e1 : List.filter (fun x => !sameKeyB x r2) [r1] = [] := by
    simp [List.filter_cons, hk]
  have e2 : List.filter (fun x => sameKeyB x r2) [r2] = [r2] := by
    simp [List.filter_cons, sameKeyB_self_of r1 r2 hk]
  rw [e1, e2, List.append_nil, filter_key_filter_not]
  rfl

theorem saveIgnorePair (tbl : List Row2) (s1 s2 : Dict) (fd : String)
    (rd : Option String)
    (hk : sameKey2B (mkRow2 s1 fd rd) (mkRow2 s2 fd rd) = true)
    (ht : (mkRow2 s1 fd rd).ticker ≠ PyVal.none_)
    (hclean : ∀ x ∈ tbl, sameKey2B x (mkRow2 s1 fd rd) = false) :
    saveSwapData [s1, s2] fd rd tbl = tbl ++ [mkRow2 s1 fd rd] ∧
    (saveSwapData [s1, s2] fd rd tbl).filter
        (fun x => sameKey2B x (mkRow2 s1 fd rd)) = [mkRow2 s1 fd rd] := by
  set r1 := mkRow2 s1 fd rd with hr1
  set r2 := mkRow2 s2 fd rd with hr2
  have hany : tbl.any (fun x => sameKey2B x r1) = false := by
    cases hq : tbl.any (fun x => sameKey2B x r1) with
    | true =>
      obtain ⟨x, hx, hpx⟩ := List.any_eq_true.mp hq
      rw [hclean x hx] at hpx
      exact hpx.symm
    | false => rfl
  have step1 : insertOrIgnoreRow2 tbl r1 = tbl ++ [r1] := by
    unfold insertOrIgnoreRow2
    rw [if_neg ht, hany]
    simp
  have hany2 : (tbl ++ [r1]).any (fun x => sameKey2B x r2) = true :=
    List.any_eq_true.mpr ⟨r1, by simp, hk⟩
  have step2 : insertOrIgnoreRow2 (tbl ++ [r1]) r2 = tbl ++ [r1] := by
    unfold insertOrIgnoreRow2
    by_cases h2t : r2.ticker = PyVal.none_
    · rw [if_pos h2t]
    · rw [if_neg h2t, hany2]
      simp
  have hres : saveSwapData [s1, s2] fd rd tbl = tbl ++ [r1] := by
    unfold saveSwapData
    simp only [List.foldl_cons, List.foldl_nil]
    rw [← hr1, ← hr2, step1, step2]
  refine ⟨hres, ?_⟩
  rw [hres, List.filter_append]
  have hnil : tbl.filter (fun x => sameKey2B x r1) = [] := by
    rw [List.filter_eq_nil_iff]
    intro x hx
    simp [hclean x hx]
  rw [hnil]
  simp [List.filter_cons, sameKey2B_self_of r1 r2 hk]

theorem dictGet_fieldStep_ne (e : Xml) (d : Dict) (m : String × List String)
    (k : String) (h : k ≠ m.1) :
    dictGet (fieldStep e d m) k = dictGet d k := by
  unfold fieldStep
  cases findFieldValue m.2 e with
  | none => rfl
  | some v =>
    simp only
    split
    · rfl
    · exact dictGet_set_ne d m.1 k _ h

theorem dictGet_fieldFold_ticker (e : Xml) (d : Dict) :
    dictGet (fieldMappings.foldl (fieldStep e) d) "ticker" = dictGet d "ticker" := by
  simp only [fieldMappings, List.foldl_cons, List.foldl_nil]
  rw [dictGet_fieldStep_ne _ _ _ _ (by decide), dictGet_fieldStep_ne _ _ _ _ (by decide),
    dictGet_fieldStep_ne _ _ _ _ (by decide), dictGet_fieldStep_ne _ _ _ _ (by decide)]

theorem dictGet_applyFloating_ne (e : Xml) (d : Dict) (k : String)
    (h1 : k ≠ "fixed_or_floating") (h2 : k ≠ "floating_rt_index")
    (h3 : k ≠ "floating_rt_spread") :
    dictGet (applyFloating e d) k = dictGet d k := by
  unfold applyFloating
  cases findFloatingPmntDesc e with
  | none => rfl
  | some fp =>
    dsimp only
    cases fp.attrGet "floatingRtSpread" with
    | none =>
      dsimp only
      split
      · rw [dictGet_set_ne _ _ _ _ h2, dictGet_set_ne _ _ _ _ h1]
      · rw [dictGet_set_ne _ _ _ _ h1]
    | some sv =>
      dsimp only
      split
      · rw [dictGet_set_ne _ _ _ _ h3, dictGet_set_ne _ _ _ _ h2,
          dictGet_set_ne _ _ _ _ h1]
      · rw [dictGet_set_ne _ _ _ _ h3, dictGet_set_ne _ _ _ _ h1]

theorem extractSpecific_ticker (e : Xml) (tk url : String) (d : Dict)
    (h : extractSpecificSwapInfo e tk url = some d) :
    dictGet d "ticker" = some (.str tk) := by
  unfold extractSpecificSwapInfo at h
  split at h
  · dsimp only at h
    split at h
    · obtain rfl := Option.some.inj h
      rw [dictGet_applyFloating_ne _ _ _ (by decide) (by decide) (by decide),
        dictGet_fieldFold_ticker]
      rfl
    · exact absurd h (by simp)
  · exact absurd h (by simp)

theorem parseBody_ticker (root : Xml) (tk url : String) (d : Dict)
    (h : d ∈ parseBodySpecific root tk url) :
    dictGet d "ticker" = some (.str tk) := by
  unfold parseBodySpecific at h
  cases hv : varMeta root with
  | none => rw [hv] at h; exact absurd h (by simp)
  | some meta =>
    obtain ⟨iname, iid⟩ := meta
    rw [hv] at h
    dsimp only at h
    rcases List.mem_flatMap.mp h with ⟨p, _, hd⟩
    rcases List.mem_filterMap.mp hd with ⟨e, _, hmap⟩
    cases hex : extractSpecificSwapInfo e tk url with
    | none => rw [hex] at hmap; exact absurd hmap (by simp)
    | some d0 =>
      rw [hex] at hmap
      obtain rfl := Option.some.inj hmap
      rw [dictGet_set_ne _ _ _ _ (by decide), dictGet_set_ne _ _ _ _ (by decide),
        dictGet_set_ne _ _ _ _ (by decide)]
      exact extractSpecific_ticker e tk url d0 hex

theorem parseSpecific_ticker (c : Except String Xml) (tk url : String)
    (sid : Option String) (d : Dict) (h : d ∈ parseNportXmlSpecific c tk url sid) :
    dictGet d "ticker" = some (.str tk) := by
  unfold parseNportXmlSpecific at h
  cases c with
  | error msg => exact absurd h (by simp)
  | ok root =>
    cases sid with
    | none => exact parseBody_ticker root tk url d h
    | some s =>
      dsimp only at h
      cases hfd : findDesc root ⟨nportNs, "seriesId"⟩ with
      | none => rw [hfd] at h; exact absurd h (by simp)
      | some el =>
        rw [hfd] at h
        dsimp only at h
        by_cases ht : el.text = some s
        · rw [if_pos ht] at h
          exact parseBody_ticker root tk url d h
        · rw [if_neg ht] at h
          exact absurd h (by simp)

theorem saveSpecific_append (a b : List Dict) (fd : String) (pr : Option String)
    (tbl : List Row) :
    saveSwapDataSpecific (a ++ b) fd pr tbl =
      saveSwapDataSpecific b fd pr (saveSwapDataSpecific a fd pr tbl) := by
  unfold saveSwapDataSpecific
  exact List.foldl_append _ _ a b

theorem saveChunked_eq (swaps : List Dict) (fd : String) (pr : Option String)
    (tbl : List Row) :
    saveChunked swaps fd pr tbl = saveSwapDataSpecific swaps fd pr tbl := by
  induction swaps using chunks100.induct generalizing tbl with
  | case1 =>
    unfold saveChunked
    rw [chunks100]
    rfl
  | case2 x xs ih =>
    unfold saveChunked at ih ⊢
    rw [chunks100, List.foldl_cons]
    rw [ih]
    rw [← saveSpecific_append, List.take_append_drop]

theorem clearTicker_insertOrReplace (tbl : List Row) (r : Row) (tk : String)
    (h : r.ticker = .str tk) :
    clearTicker (insertOrReplaceRow tbl r) tk = clearTicker tbl tk := by
  unfold clearTicker insertOrReplaceRow
  rw [List.filter_append]
  have h2 : List.filter (fun x => !decide (x.ticker = PyVal.str tk)) [r] = [] := by
    simp [List.filter_cons, h]
  rw [h2, List.append_nil]
  apply filter_filter_of_imp
  intro x hx
  simp only [Bool.not_eq_true', decide_eq_false_iff_not] at hx
  simp only [Bool.not_eq_true']
  cases hkb : sameKeyB x r with
  | false => rfl
  | true =>
    exfalso
    rw [sameKeyB_iff] at hkb
    exact hx (h ▸ hkb.1)

theorem clearTicker_saveStep (fd : String) (pr : Option String) (tbl : List Row)
    (s : Dict) (tk : String) (hs : dictGet s "ticker" = some (.str tk)) :
    clearTicker (saveStepSpecific fd pr tbl s) tk = clearTicker tbl tk := by
  unfold saveStepSpecific mkRowSpec
  rw [hs]
  dsimp only
  rw [if_neg (by simp)]
  exact clearTicker_insertOrReplace tbl _ tk rfl

theorem clearTicker_saveAll (swaps : List Dict) (fd : String) (pr : Option String)
    (tbl : List Row) (tk : String)
    (h : ∀ s ∈ swaps, dictGet s "ticker" = some (.str tk)) :
    clearTicker (saveSwapDataSpecific swaps fd pr tbl) tk = clearTicker tbl tk := by
  induction swaps generalizing tbl with
  | nil => rfl
  | cons s rest ih =>
    unfold saveSwapDataSpecific at ih ⊢
    rw [List.foldl_cons]
    rw [ih (saveStepSpecific fd pr tbl s) (fun x hx => h x (List.mem_cons_of_mem s hx))]
    exact clearTicker_saveStep fd pr tbl s tk (h s (List.mem_cons_self s rest))

theorem clearTicker_idem (tbl : List Row) (tk : String) :
    clearTicker (clearTicker tbl tk) tk = clearTicker tbl tk := by
  unfold clearTicker
  exact filter_filter_of_imp _ _ tbl (fun x hx => hx)

theorem clearTicker_processTickerXml (tbl : List Row) (tk : String)
    (job : FilingJob) (sid : Option String) :
    clearTicker (processTickerXml tbl tk job sid) tk = clearTicker tbl tk := by
  unfold processTickerXml
  cases job.content with
  | error msg => rfl
  | ok root =>
    dsimp only
    split
    · rfl
    · rw [saveChunked_eq]
      exact clearTicker_saveAll _ _ _ tbl tk
        (fun s hs => parseSpecific_ticker (.ok root) tk job.url sid s hs)

theorem clearTicker_processFold (jobs : List FilingJob) (tk : String)
    (sid : Option String) :
    ∀ t : List Row,
      clearTicker (jobs.foldl (fun t j => processTickerXml t tk j sid) t) tk =
        clearTicker t tk := by
  induction jobs with
  | nil => intro t; rfl
  | cons j rest ih =>
    intro t
    rw [List.foldl_cons, ih (processTickerXml t tk j sid),
      clearTicker_processTickerXml]

theorem dictGet_applyFloating_fri (e : Xml) (d : Dict) (fp : Xml)
    (hfp : findFloatingPmntDesc e = some fp)
    (hfri : fp.attrGetD "floatingRtIndex" "" ≠ "") :
    dictGet (applyFloating e d) "floating_rt_index" =
      some (.str (normalizeFloatingRtIndex (fp.attrGetD "floatingRtIndex" ""))) := by
  unfold applyFloating
  rw [hfp]
  dsimp only
  cases hsv : fp.attrGet "floatingRtSpread" with
  | none =>
    rw [if_pos hfri]
    exact dictGet_set_self _ _ _
  | some sv =>
    rw [if_pos hfri, dictGet_set_ne _ _ _ _ (by decide)]
    exact dictGet_set_self _ _ _

/-! Claim theorems. -/

/-- C1 counterexample: `save_swap_data` (`etf_swap_extractor.py`) uses
`INSERT OR IGNORE`, so saving two entries with the identical dedup key
(ticker, filing_date, counterparty, notional) stores exactly one record whose
field values are those of the FIRST written entry (`floating_rate_index =
"OBFR"`), not the most recently written one (`"FEDL01"`) — refuting the claim
as stated for this cited save path. -/
theorem C1_counterexample :
    sameKey2B (mkRow2 dIgnA "2024-01-01" none) (mkRow2 dIgnB "2024-01-01" none)
        = true ∧
    saveSwapData [dIgnA, dIgnB] "2024-01-01" none [] =
      [mkRow2 dIgnA "2024-01-01" none] ∧
    (mkRow2 dIgnA "2024-01-01" none).floating_rate_index = .str "OBFR" ∧
    (mkRow2 dIgnB "2024-01-01" none).floating_rate_index = .str "FEDL01" := by
  decide

/-- C1 (amended): saving two extracted entries with identical non-null dedup
key (ticker, filing_date, counterparty_name, notional_amount) yields exactly
one stored record with that key; under `save_swap_data_specific`
(`INSERT OR REPLACE`) that record carries the most recently written entry's
values, while under `save_swap_data` (`INSERT OR IGNORE`) it keeps the
first-written entry's values (into a table not already holding the key). -/
theorem C1_dedup_upsert (tbl : List Row) (s1 s2 : Dict) (fd : String)
    (pr : Option String) (r1 r2 : Row)
    (h1 : mkRowSpec s1 fd pr = some r1) (h2 : mkRowSpec s2 fd pr = some r2)
    (hk : sameKeyB r1 r2 = true)
    (tbl2 : List Row2) (t1 t2 : Dict) (fd2 : String) (rd : Option String)
    (hk2 : sameKey2B (mkRow2 t1 fd2 rd) (mkRow2 t2 fd2 rd) = true)
    (ht2 : (mkRow2 t1 fd2 rd).ticker ≠ PyVal.none_)
    (hclean : ∀ x ∈ tbl2, sameKey2B x (mkRow2 t1 fd2 rd) = false) :
    (saveSwapDataSpecific [s1, s2] fd pr tbl).filter (fun x => sameKeyB x r2) =
        [r2] ∧
    (saveSwapData [t1, t2] fd2 rd tbl2).filter
        (fun x => sameKey2B x (mkRow2 t1 fd2 rd)) = [mkRow2 t1 fd2 rd] :=
  ⟨saveSpecificPair tbl s1 s2 fd pr r1 r2 h1 h2 hk,
   (saveIgnorePair tbl2 t1 t2 fd2 rd hk2 ht2 hclean).2⟩

set_option maxRecDepth 8000 in
/-- C1 witness: both save paths evaluated on concrete same-key entry pairs. -/
theorem C1_dedup_upsert_witness :
    (saveSwapDataSpecific [dSpecA, dSpecB] "2024-01-01" none []).filter
        (fun x => sameKeyB x rowSpecB) = [rowSpecB] ∧
    (saveSwapData [dIgnA, dIgnB] "2024-01-01" none []).filter
        (fun x => sameKey2B x (mkRow2 dIgnA "2024-01-01" none)) =
      [mkRow2 dIgnA "2024-01-01" none] :=
  C1_dedup_upsert [] dSpecA dSpecB "2024-01-01" none rowSpecA rowSpecB
    (by decide) (by decide) (by decide)
    [] dIgnA dIgnB "2024-01-01" none (by decide) (by decide)
    (fun x hx => absurd hx (by simp))

/-- C2 counterexample: in `tsll_swap_extractor_fixed.py`, `find_series_data`
on a document in which the series identifier occurs nowhere returns the WHOLE
document (not empty), and `extract_swap_data` on that result still produces
records — so entries from a non-matching document are produced, refuting the
claim for this cited parse path. -/
theorem C2_counterexample :
    findSeriesData docTsll "S000072483" "C000227645" = docTsll ∧
    docTsll.iterL.all (fun e => !textContains e "S000072483") = true ∧
    (extractSwapData (findSeriesData docTsll "S000072483" "C000227645")
      "2024-03-31").length = 2 := by
  refine ⟨rfl, by decide, by decide⟩

/-- C2 (amended): in the manual parser `_parse_nport_xml_specific`, with a
series filter supplied, a document whose `seriesId` element is absent or whose
text differs from the filter yields the empty sequence; the tsll variant
instead falls back to scanning the whole document. -/
theorem C2_series_filter (root : Xml) (tk url sid : String)
    (h : seriesMismatch root sid = true) :
    parseNportXmlSpecific (.ok root) tk url (some sid) = [] := by
  unfold parseNportXmlSpecific
  unfold seriesMismatch at h
  dsimp only
  cases hfd : findDesc root ⟨nportNs, "seriesId"⟩ with
  | none => rfl
  | some el =>
    rw [hfd] at h
    dsimp only at h ⊢
    rw [if_neg (of_decide_eq_true h)]

/-- C2 witness: the series gate evaluated on a concrete mismatching
document. -/
theorem C2_series_filter_witness :
    parseNportXmlSpecific (.ok docSeries) "TSLL" "u" (some "S000072483") = [] :=
  C2_series_filter docSeries "TSLL" "u" "S000072483" (by decide)

/-- C3 counterexample: `_extract_swap_info` (`etf_swap_extractor.py`) returns
a record for an entry holding only a counterparty — rate type, floating index
and notional all absent — refuting the all-four-fields acceptance claim for
this cited extractor. -/
theorem C3_counterexample :
    extractSwapInfo eLoose none = some [("counterparty", PyVal.str "BANK A")] ∧
    dictHasKey [("counterparty", PyVal.str "BANK A")] "notional_amount" = false ∧
    dictHasKey [("counterparty", PyVal.str "BANK A")] "fixed_or_floating" = false ∧
    dictHasKey [("counterparty", PyVal.str "BANK A")] "floating_rate_index" = false := by
  decide

/-- C3 (amended): the strict completeness gate holds for
`_extract_specific_swap_info` (the manual extractor): whenever it returns a
record, the `counterparty_name`, `fixed_or_floating`, `floating_rt_index` and
`notional_amt` dict keys are all present (an entry missing any of them is
rejected); the looser `_extract_swap_info` accepts any single extracted
field. -/
theorem C3_completeness_gate (e : Xml) (tk url : String) (d : Dict)
    (h : extractSpecificSwapInfo e tk url = some d) :
    dictHasKey d "counterparty_name" = true ∧
    dictHasKey d "fixed_or_floating" = true ∧
    dictHasKey d "floating_rt_index" = true ∧
    dictHasKey d "notional_amt" = true := by
  unfold extractSpecificSwapInfo at h
  split at h
  · dsimp only at h
    split at h
    · rename_i hall
      obtain rfl := Option.some.inj h
      rw [List.all_eq_true] at hall
      exact ⟨hall _ (by simp [requiredFields]), hall _ (by simp [requiredFields]),
        hall _ (by simp [requiredFields]), hall _ (by simp [requiredFields])⟩
    · exact absurd h (by simp)
  · exact absurd h (by simp)

set_option maxRecDepth 8000 in
/-- C3 witness: the strict extractor evaluated on a complete concrete entry. -/
theorem C3_completeness_gate_witness :
    dictHasKey dGood "counterparty_name" = true ∧
    dictHasKey dGood "fixed_or_floating" = true ∧
    dictHasKey dGood "floating_rt_index" = true ∧
    dictHasKey dGood "notional_amt" = true :=
  C3_completeness_gate eGood "TSLL" "u" dGood (by decide)

/-- C4: constructing `ETFSwapDataExtractor` runs `setup_database`, whose
`DROP TABLE IF EXISTS` statements erase every previously persisted swap row
(for every ticker, not only the one about to be processed) and every ticker
mapping, leaving both freshly created tables empty. -/
theorem C4_init_erases_database (db : DBState) (tk : String) :
    (extractorInit db).swap_data = some [] ∧
    (extractorInit db).ticker_mappings = some [] ∧
    ((extractorInit db).swap_data.getD []).filter
      (fun r => decide (r.ticker = PyVal.str tk)) = [] :=
  ⟨rfl, rfl, rfl⟩

/-- C5: running `process_ticker` twice for the same ticker, series filter and
(unchanged) located-filing/fetch outcomes leaves the persisted table exactly
as after one run: the purge-then-reload sequence is idempotent. -/
theorem C5_process_ticker_idempotent (tbl : List Row) (tk : String)
    (jobs : List FilingJob) (sid : Option String) :
    processTicker (processTicker tbl tk jobs sid) tk jobs sid =
      processTicker tbl tk jobs sid := by
  unfold processTicker
  rw [clearTicker_processFold jobs tk sid (clearTicker tbl tk), clearTicker_idem]

/-- C6 counterexample: the floating-rate spread conversion (lines 349-354)
does NOT strip `[,$%]` before `float`: on `"0.15%"` it retains the raw string,
whereas the claimed uniform normalization (as applied to the notional field)
would produce the number 0.15. -/
theorem C6_counterexample :
    convertSpread "0.15%" = PyVal.str "0.15%" ∧
    convertNotional "0.15%" = PyVal.num (mkRat 3 20) ∧
    PyVal.str "0.15%" ≠ PyVal.num (mkRat 3 20) := by
  decide

/-- C6 (amended): only the notional amount is normalized by stripping
currency symbols, thousands separators and percent signs before float
conversion; the floating-rate spread is float-converted directly with no
stripping; in both cases a failed conversion retains the original string, and
`"1,000,000.00"` normalizes to the number 1000000. -/
theorem C6_numeric_normalization :
    (∀ s q, pyFloat (cleanNumeric s) = some q → convertNotional s = .num q) ∧
    (∀ s, pyFloat (cleanNumeric s) = none → convertNotional s = .str s) ∧
    (∀ s q, pyFloat s = some q → convertSpread s = .num q) ∧
    (∀ s, pyFloat s = none → convertSpread s = .str s) ∧
    convertNotional "1,000,000.00" = .num 1000000 := by
  refine ⟨?_, ?_, ?_, ?_, by decide⟩
  · intro s q h; unfold convertNotional; rw [h]
  · intro s h; unfold convertNotional; rw [h]
  · intro s q h; unfold convertSpread; rw [h]
  · intro s h; unfold convertSpread; rw [h]

/-- C6 witness: the conversions evaluated on concrete strings. -/
theorem C6_numeric_normalization_witness :
    convertNotional "1,000,000.00" = PyVal.num 1000000 ∧
    convertSpread "0.15" = PyVal.num (mkRat 3 20) ∧
    convertSpread "bad" = PyVal.str "bad" :=
  ⟨C6_numeric_normalization.2.2.2.2,
   C6_numeric_normalization.2.2.1 "0.15" (mkRat 3 20) (by decide),
   C6_numeric_normalization.2.2.2.1 "bad" (by decide)⟩

/-- C7: for an entry whose `floatingPmntDesc` carries a non-empty
`floatingRtIndex` attribute, any record the strict extractor returns stores
`floating_rt_index` as the normalized value, which is always a member of the
allow-list; a recognized value is kept unchanged and an unrecognized value is
mapped to the default `"1 month Sofr + spread"`, never rejected. -/
theorem C7_floating_index_allowlist (e : Xml) (tk url : String) (fp : Xml)
    (d : Dict) (hfp : findFloatingPmntDesc e = some fp)
    (hfri : fp.attrGetD "floatingRtIndex" "" ≠ "")
    (h : extractSpecificSwapInfo e tk url = some d) :
    dictGet d "floating_rt_index" =
      some (.str (normalizeFloatingRtIndex (fp.attrGetD "floatingRtIndex" ""))) ∧
    normalizeFloatingRtIndex (fp.attrGetD "floatingRtIndex" "") ∈ validIndices ∧
    (fp.attrGetD "floatingRtIndex" "" ∈ validIndices →
      normalizeFloatingRtIndex (fp.attrGetD "floatingRtIndex" "") =
        fp.attrGetD "floatingRtIndex" "") ∧
    (fp.attrGetD "floatingRtIndex" "" ∉ validIndices →
      normalizeFloatingRtIndex (fp.attrGetD "floatingRtIndex" "") =
        "1 month Sofr + spread") := by
  refine ⟨?_, ?_, ?_, ?_⟩
  · unfold extractSpecificSwapInfo at h
    split at h
    · dsimp only at h
      split at h
      · obtain rfl := Option.some.inj h
        exact dictGet_applyFloating_fri e _ fp hfp hfri
      · exact absurd h (by simp)
    · exact absurd h (by simp)
  · unfold normalizeFloatingRtIndex
    split
    · assumption
    · simp [validIndices]
  · intro hmem; unfold normalizeFloatingRtIndex; rw [if_pos hmem]
  · intro hmem; unfold normalizeFloatingRtIndex; rw [if_neg hmem]

set_option maxRecDepth 8000 in
/-- C7 witness: the allow-list normalization evaluated on the concrete entry
`eGood` (attribute value `"OBFR"`). -/
theorem C7_floating_index_allowlist_witness :
    dictGet dGood "floating_rt_index" =
      some (.str (normalizeFloatingRtIndex (fpGood.attrGetD "floatingRtIndex" ""))) ∧
    normalizeFloatingRtIndex (fpGood.attrGetD "floatingRtIndex" "") ∈ validIndices ∧
    (fpGood.attrGetD "floatingRtIndex" "" ∈ validIndices →
      normalizeFloatingRtIndex (fpGood.attrGetD "floatingRtIndex" "") =
        fpGood.attrGetD "floatingRtIndex" "") ∧
    (fpGood.attrGetD "floatingRtIndex" "" ∉ validIndices →
      normalizeFloatingRtIndex (fpGood.attrGetD "floatingRtIndex" "") =
        "1 month Sofr + spread") :=
  C7_floating_index_allowlist eGood "TSLL" "u" fpGood dGood rfl (by decide)
    (by decide)

/-- C8: an entry whose full serialized text contains none of the
derivative-indicating keywords is rejected by `_extract_specific_swap_info`,
and consequently a document with no swap-indicating keywords anywhere in its
serialization yields zero records from `_parse_nport_xml_specific`. -/
theorem C8_keyword_gate :
    (∀ e tk url, hasIndicators (serializeL e) = false →
      extractSpecificSwapInfo e tk url = none) ∧
    (∀ root tk url sid, hasIndicators (serializeL root) = false →
      parseNportXmlSpecific (.ok root) tk url sid = []) := by
  constructor
  · exact extractSpecific_eq_none_of_no_indicators
  · intro root tk url sid h
    unfold parseNportXmlSpecific
    cases sid with
    | none => exact parseBodySpecific_eq_nil_of_no_indicators root tk url h
    | some s =>
      dsimp only
      cases hfd : findDesc root ⟨nportNs, "seriesId"⟩ with
      | none => rfl
      | some el =>
        dsimp only
        split
        · exact parseBodySpecific_eq_nil_of_no_indicators root tk url h
        · rfl

/-- C8 witness: the keyword gate evaluated on a concrete keyword-free
document. -/
theorem C8_keyword_gate_witness :
    extractSpecificSwapInfo docPlain "TSLL" "u" = none ∧
    parseNportXmlSpecific (.ok docPlain) "TSLL" "u" none = [] :=
  ⟨C8_keyword_gate.1 docPlain "TSLL" "u" (by decide),
   C8_keyword_gate.2 docPlain "TSLL" "u" none (by decide)⟩

/-- C9: when structural XML parsing fails (a `ParseError` from
`ET.fromstring`, the `.error` case), both `_parse_nport_xml_specific` and
`_parse_nport_xml` return the empty sequence; the embedding is total, so no
exception escapes the boundary. -/
theorem C9_parse_failure_empty (msg tk url : String) (sid : Option String) :
    parseNportXmlSpecific (.error msg) tk url sid = [] ∧
    parseNportXml (.error msg) tk url = [] :=
  ⟨rfl, rfl⟩

/-- C10: for every submissions response and valid registrant id, the filing
references returned by `get_historical_filings` are sorted descending by
filing date, and likewise the output of `get_nport_filings` for every
browse-edgar response. -/
theorem C10_filings_sorted_desc (resp : Except String Submissions)
    (cik sd ed : String) (h : (strToNat? cik).isSome = true)
    (resp2 : Except String Xml) (base start : String) :
    (getHistoricalFilings resp cik sd ed).Pairwise
      (fun a b => b.filing_date ≤ a.filing_date) ∧
    (getNportFilings resp2 base start).Pairwise (fun a b => b.date ≤ a.date) := by
  constructor
  · unfold getHistoricalFilings
    cases resp with
    | error msg => simp
    | ok data => exact pairwise_sortDescBy _ _
  · unfold getNportFilings
    exact pairwise_sortDescBy _ _

/-- C10 witness: both locators evaluated on concrete feeds with out-of-order
filings. -/
theorem C10_filings_sorted_desc_witness :
    (getHistoricalFilings (.ok subsW) "0001232683" "2023-01-01" "2024-12-31").Pairwise
      (fun a b => b.filing_date ≤ a.filing_date) ∧
    (getNportFilings (.ok browseW) "https://www.sec.gov" "2023-01-01").Pairwise
      (fun a b => b.date ≤ a.date) :=
  C10_filings_sorted_desc (.ok subsW) "0001232683" "2023-01-01" "2024-12-31"
    (by decide) (.ok browseW) "https://www.sec.gov" "2023-01-01"
